import Mathlib

/-!
Shallow embedding of `gevent_requests.py` (module `gevent_requests`,
version 1.1.1) and proofs about its scheduler/collector behaviour.

Modelling conventions:
* Response payloads are opaque to the scheduler, so every definition is
  parametric in a type `ρ` of response values.
* Python exception objects are modelled by their rendered text (`String`);
  `traceback.format_exc()` is modelled by `formatExc`.
* `requests.Session` objects are modelled by numeric identifiers; the
  fresh session created by `AsyncRequest.__init__` when none is supplied
  gets the reserved identifier `freshSessionId`.
* A call to `self.session.request(...)` either returns a response or
  raises: it is modelled as a function from the merged keyword arguments
  to `Except String ρ` (`.error e` = the call raised `e`).
* gevent scheduling is deterministic only up to completion order, so the
  lazy entry points are parametrised by the completion order, and the
  theorems quantify over every permutation of the executed tasks.
-/

/-- Keyword-argument dictionaries (`**kwargs`) as association lists. -/
abbrev Kwargs := List (String × String)

/-- Python `dict.update`: entries of `upd` override entries of `base`
key by key (lines 92-94 of the source: `merged_kwargs.update(self.kwargs)`
then `merged_kwargs.update(kwargs)`). -/
def dictUpdate (base upd : Kwargs) : Kwargs :=
  base.filter (fun p => upd.all (fun q => q.1 != p.1)) ++ upd

/-- Model of `traceback.format_exc()`: the captured formatted trace of the
exception currently being handled. -/
def formatExc (e : String) : String :=
  "Traceback (most recent call last): " ++ e

/-- The session identifier used for a `Session()` freshly created inside
`AsyncRequest.__init__` (line 67). -/
def freshSessionId : Nat := 0

/-- Embedding of class `AsyncRequest` after `__init__` (lines 59-83).
Field `close` embeds the Python attribute `_close`.  `__init__`
unconditionally sets `response`, `exception` and `traceback` (lines
79-83), so `hasattr(req, "exception")` is true for every `AsyncRequest`. -/
structure AsyncRequest (ρ : Type) where
  method : String
  url : String
  session : Nat
  close : Bool
  kwargs : Kwargs
  response : Option ρ
  exception : Option String
  traceback : Option String
deriving Repr

/-- `AsyncRequest.__init__(method, url, **kwargs)` (lines 59-83):
pops `session` (creating an owned fresh one when absent, `_close = True`
exactly in that case), pops `callback` (stored as a response hook in the
remaining kwargs), and initialises the outcome slots to `None`. -/
def AsyncRequest.init (ρ : Type) (method url : String) (sessionArg : Option Nat)
    (callback : Option String) (kwargs : Kwargs) : AsyncRequest ρ :=
  { method := method
    url := url
    session := sessionArg.getD freshSessionId
    close := sessionArg.isNone
    kwargs := match callback with
      | some cb => ("hooks", cb) :: kwargs
      | none => kwargs
    response := none
    exception := none
    traceback := none }

/-- Outcome of one `AsyncRequest.send` call: the returned `self` (with its
outcome slots updated) together with whether `self.session.close()` was
executed by the `finally` block. -/
structure SendResult (ρ : Type) where
  req : AsyncRequest ρ
  sessionClosed : Bool
deriving Repr

/-- The body of `AsyncRequest.send` (lines 85-105): merge the stored
kwargs with the per-call overrides, perform `session.request` on them,
store the response on success, store the exception and formatted traceback
on failure, and in either case run the `finally` block, which closes the
session exactly when `_close` is set. -/
def AsyncRequest.sendCore (r : AsyncRequest ρ) (overrides : Kwargs)
    (request : Kwargs → Except String ρ) : SendResult ρ :=
  let merged := dictUpdate r.kwargs overrides
  match request merged with
  | .ok v =>
    { req := { r with response := some v }, sessionClosed := r.close }
  | .error e =>
    { req := { r with exception := some e, traceback := some (formatExc e) }
      sessionClosed := r.close }

/-- `AsyncRequest.send` seen from its caller: the `try/except Exception`
block absorbs the failing call (the `.error` branch of `sendCore`), so the
method itself always returns normally (`.ok`), yielding `self`. -/
def AsyncRequest.send (r : AsyncRequest ρ) (overrides : Kwargs)
    (request : Kwargs → Except String ρ) : Except String (SendResult ρ) :=
  .ok (r.sendCore overrides request)

/-- One task handed to an entry point: the `AsyncRequest` object, the
behaviour of its `session.request` call, and whether its greenlet finished
before `gevent.joinall` gave up (`ran = false` only under `gtimeout`). -/
structure TaskSpec (ρ : Type) where
  req : AsyncRequest ρ
  request : Kwargs → Except String ρ
  ran : Bool

/-- The keyword override `r.send(stream=stream)` used by the dispatcher
(line 136/138) and by the `_send` helpers (lines 228 and 269). -/
def streamKw (stream : Bool) : Kwargs :=
  [("stream", if stream then "True" else "False")]

/-- The state of a task's `AsyncRequest` after its greenlet ran
`r.send(stream=stream)` to completion. -/
def TaskSpec.executed (stream : Bool) (t : TaskSpec ρ) : AsyncRequest ρ :=
  (t.req.sendCore (streamKw stream) t.request).req

/-- The state of a task's `AsyncRequest` as observed by `gmap`'s collection
loop after `gevent.joinall(jobs, timeout=gtimeout)` (line 185): the
executed state when the greenlet finished in time, the untouched request
otherwise. -/
def TaskSpec.joined (stream : Bool) (t : TaskSpec ρ) : AsyncRequest ρ :=
  if t.ran then t.executed stream else t.req

/-- The `exception_handler` argument of the three entry points, as passed
by the caller: `None`, a callable, or a non-callable object (the case the
`assert` rejects). -/
inductive ExcHandler (ρ : Type) where
  | none
  | callable (f : AsyncRequest ρ → Option String → Option ρ)
  | notCallable

/-- The condition tested by
`assert exception_handler is None or callable(exception_handler)`
(lines 179, 224 and 264). -/
def ExcHandler.admissible : ExcHandler ρ → Bool
  | .notCallable => false
  | _ => true

/-- The message of the `AssertionError` raised by the three entry points. -/
def assertMsg : String := "exception_handler has to be a callable object"

/-- One iteration of `gmap`'s collection loop (lines 189-197): the
response when there is one; otherwise the handler's return value when a
handler was supplied (the `hasattr(req, "exception")` guard on lines 192
and 194 is always true, since `__init__` sets the attribute, so the two
`elif` branches collapse to a single call `exception_handler(req,
req.exception)`); otherwise `None`. -/
def gmapCollectOne (eh : ExcHandler ρ) (req : AsyncRequest ρ) : Option ρ :=
  match req.response with
  | some resp => some resp
  | none =>
    match eh with
    | .callable f => f req req.exception
    | _ => none

/-- `gmap` (lines 156-199).  A plain function: the `assert` on line 179
runs at call time, before `list(requests)`, before the pool is created and
before any job is spawned.  The scheduling of the jobs only determines
which tasks finish before the join gives up (the `ran` flags); the
collection loop then walks the requests in input order. -/
def gmap (stream : Bool) (tasks : List (TaskSpec ρ)) (eh : ExcHandler ρ) :
    Except String (List (Option ρ)) :=
  if eh.admissible then
    .ok ((tasks.map (TaskSpec.joined stream)).map (gmapCollectOne eh))
  else
    .error assertMsg

/-- Line 183, `pool = Pool(size) if size else None`, with Python
truthiness: both `size=None` and `size=0` produce no pool. -/
def gmapPool (size : Option Nat) : Option Nat :=
  match size with
  | some k => if k = 0 then none else some k
  | none => none

/-- Slot-accounting state of one batch: how many spawned jobs have not
started yet, how many greenlets are currently running, and how many have
finished. -/
structure SchedState where
  pending : Nat
  running : Nat
  done : Nat
deriving Repr, DecidableEq

/-- Modelled from the spec: the slot semantics of the concurrency
substrate (`gevent.pool.Pool` is an external dependency; the source only
constructs `Pool(size)` on line 183 and spawns into it on lines 135-138).
Per the spec's shared-resource policy, a slot is acquired before a task
runs and released exactly once on completion; with a pool of capacity `k`
a pending task may start only while fewer than `k` tasks are running,
and with no pool (`cap = none`) every task runs on its own unthrottled
greenlet, so a pending task may always start. -/
inductive PoolStep : Option Nat → SchedState → SchedState → Prop
  | start (cap : Option Nat) (p r d : Nat)
      (hcap : ∀ k, cap = some k → r < k) :
      PoolStep cap ⟨p + 1, r, d⟩ ⟨p, r + 1, d⟩
  | finish (cap : Option Nat) (p r d : Nat) :
      PoolStep cap ⟨p, r + 1, d⟩ ⟨p, r, d + 1⟩

/-- Reflexive-transitive closure of `PoolStep`: the states a batch can
reach under a given pool capacity. -/
inductive PoolReach (cap : Option Nat) : SchedState → SchedState → Prop
  | refl (s : SchedState) : PoolReach cap s s
  | step {s t u : SchedState} : PoolReach cap s t → PoolStep cap t u →
      PoolReach cap s u

/-- The scheduler state right after `gmap` has spawned its `n` jobs
(line 184): all pending, none running, none done. -/
def gmapInit (n : Nat) : SchedState := ⟨n, 0, 0⟩

/-- One item of `gimap`'s loop body (lines 230-236), as the optional value
it contributes to the produced sequence: the response when there is one;
otherwise, when a handler is supplied, its return value — yielded only
when not `None`; otherwise nothing. -/
def gimapItem (eh : ExcHandler ρ) (req : AsyncRequest ρ) : Option ρ :=
  match req.response with
  | some resp => some resp
  | none =>
    match eh with
    | .callable f => f req req.exception
    | _ => none

/-- The sequence of values `gimap` yields, given the executed requests in
completion order: each completed request contributes `gimapItem`, and
contributions of `none` are omitted from the sequence. -/
def gimapYields (eh : ExcHandler ρ) (completed : List (AsyncRequest ρ)) :
    List ρ :=
  completed.filterMap (gimapItem eh)

/-- A suspended `gimap` generator.  `gimap` (lines 202-238) contains
`yield`, so in Python it is a generator function: calling it executes none
of its body — the arguments are only packaged into a generator object. -/
structure GimapGen (ρ : Type) where
  stream : Bool
  tasks : List (TaskSpec ρ)
  eh : ExcHandler ρ

/-- Calling `gimap(...)`: builds the suspended generator.  This step can
never raise — in particular the `assert` on line 224 does not run here. -/
def gimapCall (stream : Bool) (tasks : List (TaskSpec ρ)) (eh : ExcHandler ρ) :
    Except String (GimapGen ρ) :=
  .ok { stream := stream, tasks := tasks, eh := eh }

/-- Iterating the `gimap` generator to exhaustion: the body now runs, so
the `assert` on line 224 fires first (before the pool is created and
before any task is scheduled); otherwise the loop yields the completed
requests' contributions in completion order `completed`. -/
def GimapGen.force (g : GimapGen ρ) (completed : List (AsyncRequest ρ)) :
    Except String (List ρ) :=
  if g.eh.admissible then
    .ok (gimapYields g.eh completed)
  else
    .error assertMsg

/-- The sequence of pairs `gimap_enumerate` yields (lines 273-279), given
the executed `(index, request)` pairs in completion order: same filtering
as `gimap`, with each contributed value paired with its task's original
index. -/
def gimapEnumerateYields (eh : ExcHandler ρ)
    (completed : List (Nat × AsyncRequest ρ)) : List (Nat × ρ) :=
  completed.filterMap (fun p => (gimapItem eh p.2).map (fun resp => (p.1, resp)))

/-- A suspended `gimap_enumerate` generator (lines 241-281; also a
generator function, since its body contains `yield`). -/
structure GimapEnumGen (ρ : Type) where
  stream : Bool
  tasks : List (TaskSpec ρ)
  eh : ExcHandler ρ

/-- Calling `gimap_enumerate(...)`: builds the suspended generator without
executing the body; the `assert` on line 264 does not run here. -/
def gimapEnumerateCall (stream : Bool) (tasks : List (TaskSpec ρ))
    (eh : ExcHandler ρ) : Except String (GimapEnumGen ρ) :=
  .ok { stream := stream, tasks := tasks, eh := eh }

/-- Iterating the `gimap_enumerate` generator to exhaustion: the `assert`
on line 264 fires first; otherwise the input is materialised and
enumerated (`enumerate(list(requests))`, line 271) and the loop yields the
indexed contributions in completion order `completed`. -/
def GimapEnumGen.force (g : GimapEnumGen ρ)
    (completed : List (Nat × AsyncRequest ρ)) :
    Except String (List (Nat × ρ)) :=
  if g.eh.admissible then
    .ok (gimapEnumerateYields g.eh completed)
  else
    .error assertMsg

/-- The slot the spec assigns to one task in Strategy A's result, written
from the claim's words in terms of the task's inputs: the task's response
if one was produced (it ran and its call succeeded); otherwise the
translator's return value if a translator was supplied (with the captured
failure if the call raised, with `None` if the task never ran); otherwise
`None`. -/
def expectedSlot (stream : Bool) (eh : ExcHandler ρ) (t : TaskSpec ρ) :
    Option ρ :=
  if t.ran then
    match t.request (dictUpdate t.req.kwargs (streamKw stream)) with
    | .ok v => some v
    | .error _ =>
      match eh with
      | .callable f => f (t.executed stream) (t.executed stream).exception
      | _ => none
  else
    match eh with
    | .callable f => f t.req none
    | _ => none

/-! ## Helper lemmas -/

/-- `gimap`'s per-item contribution coincides with `gmap`'s per-position
slot: the two loops branch on `response`, the handler, and `exception`
in the same way. -/
theorem gimapItem_eq_gmapCollectOne (eh : ExcHandler ρ) (req : AsyncRequest ρ) :
    gimapItem eh req = gmapCollectOne eh req := rfl

/-- On a fresh request (outcome slots still `None`), collecting the joined
state of a task yields the slot the claim predicts from the task's inputs. -/
theorem collect_joined_eq_expected (stream : Bool) (eh : ExcHandler ρ)
    (t : TaskSpec ρ) (h1 : t.req.response = none) (h2 : t.req.exception = none) :
    gmapCollectOne eh (TaskSpec.joined stream t) = expectedSlot stream eh t := by
  by_cases hr : t.ran
  · cases hc : t.request (dictUpdate t.req.kwargs (streamKw stream)) with
    | ok v =>
      simp [TaskSpec.joined, hr, expectedSlot, TaskSpec.executed,
        AsyncRequest.sendCore, gmapCollectOne, hc]
    | error e =>
      cases eh <;>
        simp [TaskSpec.joined, hr, expectedSlot, TaskSpec.executed,
          AsyncRequest.sendCore, gmapCollectOne, hc, h1]
  · cases eh <;> simp [TaskSpec.joined, hr, expectedSlot, gmapCollectOne, h1, h2]

/-! ## Claim theorems -/

/-- C7: `AsyncRequest.send` never propagates the underlying call's
failure: for every behaviour of `session.request` it returns `self`
normally, and when the call raised `e` it has stored the exception object
and the captured formatted traceback in the failure slots. -/
theorem send_absorbs_failure (r : AsyncRequest ρ) (overrides : Kwargs)
    (request : Kwargs → Except String ρ) :
    ∃ s : SendResult ρ, r.send overrides request = .ok s ∧
      s.req.method = r.method ∧ s.req.url = r.url ∧ s.req.session = r.session ∧
      (match request (dictUpdate r.kwargs overrides) with
       | .ok v => s.req.response = some v ∧ s.req.exception = r.exception ∧
           s.req.traceback = r.traceback
       | .error e => s.req.response = r.response ∧ s.req.exception = some e ∧
           s.req.traceback = some (formatExc e)) := by
  refine ⟨r.sendCore overrides request, rfl, ?_⟩
  cases hc : request (dictUpdate r.kwargs overrides) <;>
    simp [AsyncRequest.sendCore, hc]

/-- C8: a session created by the request itself (`session` argument
absent at construction) is closed by `send` whatever the call's outcome;
a caller-supplied session is never closed by `send`. -/
theorem send_session_ownership (m u : String) (sessionArg : Option Nat)
    (callback : Option String) (kwargs overrides : Kwargs)
    (request : Kwargs → Except String ρ) :
    ∃ s : SendResult ρ,
      (AsyncRequest.init ρ m u sessionArg callback kwargs).send overrides request
        = .ok s ∧
      (s.sessionClosed = true ↔ sessionArg = none) ∧
      (sessionArg = none → s.req.session = freshSessionId) ∧
      (∀ sid, sessionArg = some sid → s.req.session = sid) := by
  refine ⟨_, rfl, ?_, ?_, ?_⟩
  all_goals
    simp only [AsyncRequest.sendCore]
    cases request (dictUpdate (AsyncRequest.init ρ m u sessionArg callback kwargs).kwargs overrides) <;>
      cases sessionArg <;> simp [AsyncRequest.init, freshSessionId]

/-- C10: `size = 0` is falsy in `Pool(size) if size else None`, so it
yields the same "no pool" configuration as `size = None`: the scheduler
steps coincide, and with no pool every pending task may start
immediately on its own unthrottled greenlet. -/
theorem size_zero_unbounded :
    gmapPool (some 0) = gmapPool none ∧
    (∀ s t : SchedState, PoolStep (gmapPool (some 0)) s t ↔ PoolStep none s t) ∧
    (∀ p r d : Nat, PoolStep none ⟨p + 1, r, d⟩ ⟨p, r + 1, d⟩) := by
  refine ⟨rfl, fun s t => Iff.rfl, fun p r d => ?_⟩
  exact PoolStep.start none p r d (fun k hk => by cases hk)

/-- C2: a task whose greenlet never completed before the batch timeout is
left untouched by the join, so its `response` and `exception` slots are
both still `None`; the collection loop therefore invokes the translator
with failure `None`, and the translator's return value becomes that
position's output in the returned list. -/
theorem gmap_timeout_translator (stream : Bool)
    (f : AsyncRequest ρ → Option String → Option ρ) (t : TaskSpec ρ)
    (before after : List (TaskSpec ρ))
    (h1 : t.req.response = none) (h2 : t.req.exception = none)
    (hnr : t.ran = false) :
    TaskSpec.joined stream t = t.req ∧
    (TaskSpec.joined stream t).response = none ∧
    (TaskSpec.joined stream t).exception = none ∧
    gmapCollectOne (ExcHandler.callable f) (TaskSpec.joined stream t) = f t.req none ∧
    gmap stream (before ++ t :: after) (ExcHandler.callable f) =
      .ok ((before.map fun x => gmapCollectOne (ExcHandler.callable f) (TaskSpec.joined stream x))
        ++ f t.req none
          :: (after.map fun x => gmapCollectOne (ExcHandler.callable f) (TaskSpec.joined stream x))) := by
  have hj : TaskSpec.joined stream t = t.req := by simp [TaskSpec.joined, hnr]
  have hcol : gmapCollectOne (ExcHandler.callable f) (TaskSpec.joined stream t)
      = f t.req none := by
    rw [hj]
    simp [gmapCollectOne, h1, h2]
  refine ⟨hj, by rw [hj]; exact h1, by rw [hj]; exact h2, hcol, ?_⟩
  simp only [gmap, ExcHandler.admissible, List.map_append, List.map_cons,
    List.map_map, hcol, if_true]
  rfl

/-- Witness task for the timeout/translator claims: a fresh GET request
whose greenlet did not finish before the join gave up. -/
def wTimeoutTask : TaskSpec Nat :=
  { req := AsyncRequest.init Nat "GET" "http://x.test/a" none none []
    request := fun _ => .ok 1
    ran := false }

/-- Witness translator: `42` when the stored failure is absent, `7`
otherwise. -/
def wTranslator : AsyncRequest Nat → Option String → Option Nat :=
  fun _ e => match e with
  | none => some 42
  | some _ => some 7

/-- C2 witness: on a concrete timed-out task the translator receives
failure `None` and its value `42` fills that position. -/
theorem gmap_timeout_translator_witness :
    TaskSpec.joined false wTimeoutTask = wTimeoutTask.req ∧
    (TaskSpec.joined false wTimeoutTask).response = none ∧
    (TaskSpec.joined false wTimeoutTask).exception = none ∧
    gmapCollectOne (ExcHandler.callable wTranslator) (TaskSpec.joined false wTimeoutTask)
      = wTranslator wTimeoutTask.req none ∧
    gmap false ([] ++ wTimeoutTask :: []) (ExcHandler.callable wTranslator) =
      .ok (([].map fun x => gmapCollectOne (ExcHandler.callable wTranslator) (TaskSpec.joined false x))
        ++ wTranslator wTimeoutTask.req none
          :: ([].map fun x => gmapCollectOne (ExcHandler.callable wTranslator) (TaskSpec.joined false x))) :=
  gmap_timeout_translator false wTranslator wTimeoutTask [] [] rfl rfl rfl

/-- C1: for every finite batch of fresh tasks and admissible handler,
`gmap` returns a list with exactly one slot per input task, in input
order; position `i` holds the response when task `i` produced one,
otherwise the translator's return value when a translator was supplied,
otherwise `None`; and when every task ran and its call succeeded, every
slot is present. -/
theorem gmap_ordered_complete (stream : Bool) (tasks : List (TaskSpec ρ))
    (eh : ExcHandler ρ) (hadm : eh.admissible = true)
    (hfresh : ∀ t ∈ tasks, t.req.response = none ∧ t.req.exception = none) :
    ∃ out : List (Option ρ), gmap stream tasks eh = .ok out ∧
      out.length = tasks.length ∧
      (∀ i, ∀ hi : i < tasks.length, ∀ ho : i < out.length,
        out.get ⟨i, ho⟩ = expectedSlot stream eh (tasks.get ⟨i, hi⟩)) ∧
      ((∀ t ∈ tasks, t.ran = true ∧
          ∃ v, t.request (dictUpdate t.req.kwargs (streamKw stream)) = .ok v) →
        ∀ o ∈ out, o.isSome = true) := by
  refine ⟨(tasks.map (TaskSpec.joined stream)).map (gmapCollectOne eh),
    by simp [gmap, hadm], by simp, ?_, ?_⟩
  · intro i hi ho
    simp only [List.get_eq_getElem, List.getElem_map]
    have hmem : tasks.get ⟨i, hi⟩ ∈ tasks := List.get_mem tasks i hi
    exact collect_joined_eq_expected stream eh (tasks.get ⟨i, hi⟩)
      (hfresh _ hmem).1 (hfresh _ hmem).2
  · intro hok o ho
    simp only [List.mem_map] at ho
    obtain ⟨t, ht, rfl⟩ := ho
    obtain ⟨t', ht', rfl⟩ := ht
    obtain ⟨hran, v, hv⟩ := hok t' ht'
    simp [TaskSpec.joined, hran, TaskSpec.executed, AsyncRequest.sendCore, hv,
      gmapCollectOne]

/-- Witness task for the no-failure batch: a fresh GET request whose call
returns response `5` and whose greenlet finished in time. -/
def wOkTask : TaskSpec Nat :=
  { req := AsyncRequest.init Nat "GET" "http://x.test/b" none none []
    request := fun _ => .ok 5
    ran := true }

/-- C1 witness: the one-task batch with no handler returns one present
slot. -/
theorem gmap_ordered_complete_witness :
    ∃ out : List (Option Nat), gmap false [wOkTask] ExcHandler.none = .ok out ∧
      out.length = [wOkTask].length ∧
      (∀ i, ∀ hi : i < [wOkTask].length, ∀ ho : i < out.length,
        out.get ⟨i, ho⟩ = expectedSlot false ExcHandler.none ([wOkTask].get ⟨i, hi⟩)) ∧
      ((∀ t ∈ [wOkTask], t.ran = true ∧
          ∃ v, t.request (dictUpdate t.req.kwargs (streamKw false)) = .ok v) →
        ∀ o ∈ out, o.isSome = true) :=
  gmap_ordered_complete false [wOkTask] ExcHandler.none rfl
    (by intro t ht; rw [List.mem_singleton] at ht; subst ht; exact ⟨rfl, rfl⟩)

/-- C4: in `gimap`, a completed request with no response contributes the
handler's return value only when that value is not `None`; with no handler,
or a handler returning `None`, the position is omitted outright — the
produced sequence skips it and goes on — whereas `gmap` always returns one
slot per input task. -/
theorem gimap_failure_suppression (eh : ExcHandler ρ)
    (before after : List (AsyncRequest ρ)) (req : AsyncRequest ρ)
    (hfail : req.response = none) :
    (gimapItem eh req = none →
      gimapYields eh (before ++ req :: after)
        = gimapYields eh before ++ gimapYields eh after) ∧
    (∀ v, gimapItem eh req = some v →
      gimapYields eh (before ++ req :: after)
        = gimapYields eh before ++ v :: gimapYields eh after) ∧
    (eh = ExcHandler.none → gimapItem eh req = none) ∧
    (∀ f, eh = ExcHandler.callable f → gimapItem eh req = f req req.exception) ∧
    (∀ stream (tasks : List (TaskSpec ρ)), eh.admissible = true →
      ∃ out, gmap stream tasks eh = .ok out ∧ out.length = tasks.length) := by
  refine ⟨?_, ?_, ?_, ?_, ?_⟩
  · intro hnone
    simp [gimapYields, hnone]
  · intro v hv
    simp [gimapYields, hv]
  · intro h
    subst h
    simp [gimapItem, hfail]
  · intro f hf
    subst hf
    simp [gimapItem, hfail]
  · intro stream tasks hadm
    refine ⟨(tasks.map (TaskSpec.joined stream)).map (gmapCollectOne eh),
      by simp [gmap, hadm], by simp⟩

/-- Witness request for suppression: a completed request that failed with
a connection error. -/
def wFailedReq : AsyncRequest Nat :=
  { method := "GET"
    url := "http://x.test/c"
    session := freshSessionId
    close := true
    kwargs := []
    response := none
    exception := some "ConnectionError"
    traceback := some (formatExc "ConnectionError") }

/-- The absent handler at the witness's response type. -/
def wNoneEH : ExcHandler Nat := ExcHandler.none

/-- C4 witness: with no handler, the concrete failed request yields
nothing and is omitted from the produced sequence. -/
theorem gimap_failure_suppression_witness :
    (gimapItem wNoneEH wFailedReq = none →
      gimapYields wNoneEH ([] ++ wFailedReq :: [])
        = gimapYields wNoneEH [] ++ gimapYields wNoneEH []) ∧
    (∀ v, gimapItem wNoneEH wFailedReq = some v →
      gimapYields wNoneEH ([] ++ wFailedReq :: [])
        = gimapYields wNoneEH [] ++ v :: gimapYields wNoneEH []) ∧
    (wNoneEH = ExcHandler.none → gimapItem wNoneEH wFailedReq = none) ∧
    (∀ f, wNoneEH = ExcHandler.callable f →
      gimapItem wNoneEH wFailedReq = f wFailedReq wFailedReq.exception) ∧
    (∀ stream (tasks : List (TaskSpec Nat)), wNoneEH.admissible = true →
      ∃ out, gmap stream tasks wNoneEH = .ok out ∧
        out.length = tasks.length) :=
  gimap_failure_suppression wNoneEH [] [] wFailedReq rfl

/-- C9: starting from the state in which `gmap` has spawned its `n` jobs
into a pool configured with a set limit `K ≥ 1`, every state the
slot-semantics can reach has at most `K` tasks running at once. -/
theorem pool_limit_invariant (K n : Nat) (s : SchedState) (hK : 0 < K)
    (h : PoolReach (gmapPool (some K)) (gmapInit n) s) : s.running ≤ K := by
  have hcap : gmapPool (some K) = some K := by
    simp [gmapPool, Nat.pos_iff_ne_zero.mp hK]
  induction h with
  | refl => simp [gmapInit]
  | step hreach hstep ih =>
    cases hstep with
    | start p r d hc =>
      exact hc K hcap
    | finish p r d =>
      exact Nat.le_of_succ_le ih

/-- C9 witness: with limit `K = 1` and two spawned jobs, the state after
one task has started is reachable and respects the limit. -/
theorem pool_limit_invariant_witness : SchedState.running ⟨1, 1, 0⟩ ≤ 1 :=
  pool_limit_invariant 1 2 ⟨1, 1, 0⟩ (by decide)
    (PoolReach.step (PoolReach.refl (gmapInit 2))
      (PoolStep.start (gmapPool (some 1)) 1 0 0
        (fun k hk => by simp [gmapPool] at hk; omega)))

/-- Dropping the indices from the indexed yields gives exactly the plain
yields of the requests alone: the two loop bodies filter identically and
the index is only carried along. -/
theorem gimapEnumerateYields_map_snd (eh : ExcHandler ρ)
    (l : List (Nat × AsyncRequest ρ)) :
    (gimapEnumerateYields eh l).map Prod.snd = gimapYields eh (l.map Prod.snd) := by
  induction l with
  | nil => rfl
  | cons p l ih =>
    simp only [gimapEnumerateYields, gimapYields, List.filterMap_cons,
      List.map_cons] at ih ⊢
    cases h : gimapItem eh p.2 <;> simp [h, ih]

/-- C6: with every task run to completion (no timeout abandonment) and an
admissible handler, the multiset of outputs `gimap` emits — for any
completion order — equals the multiset of non-absent outputs `gmap`
produces for the same inputs, and so does the multiset of values
`gimap_enumerate` emits (its outputs with their index projected away),
again for any completion order of the enumerated batch. -/
theorem gimap_gmap_multiset (stream : Bool) (tasks : List (TaskSpec ρ))
    (eh : ExcHandler ρ) (completed : List (AsyncRequest ρ))
    (completedIdx : List (Nat × AsyncRequest ρ))
    (hadm : eh.admissible = true)
    (hran : ∀ t ∈ tasks, t.ran = true)
    (hperm : completed.Perm (tasks.map (TaskSpec.executed stream)))
    (hpermIdx : completedIdx.Perm (tasks.map (TaskSpec.executed stream)).enum) :
    ∃ outB outC outA,
      GimapGen.force ⟨stream, tasks, eh⟩ completed = .ok outB ∧
      GimapEnumGen.force ⟨stream, tasks, eh⟩ completedIdx = .ok outC ∧
      gmap stream tasks eh = .ok outA ∧
      (outB : Multiset ρ) = ((outA.filterMap id : List ρ) : Multiset ρ) ∧
      ((outC.map Prod.snd : List ρ) : Multiset ρ)
        = ((outA.filterMap id : List ρ) : Multiset ρ) := by
  have hjoined : tasks.map (TaskSpec.joined stream)
      = tasks.map (TaskSpec.executed stream) :=
    List.map_congr_left (fun t ht => by simp [TaskSpec.joined, hran t ht])
  refine ⟨gimapYields eh completed, gimapEnumerateYields eh completedIdx,
    (tasks.map (TaskSpec.joined stream)).map (gmapCollectOne eh),
    by simp [GimapGen.force, hadm], by simp [GimapEnumGen.force, hadm],
    by simp [gmap, hadm], ?_, ?_⟩
  · rw [hjoined, List.filterMap_map, Function.id_comp]
    exact Multiset.coe_eq_coe.mpr (hperm.filterMap (gimapItem eh))
  · rw [hjoined, List.filterMap_map, Function.id_comp,
      gimapEnumerateYields_map_snd]
    have h1 : (completedIdx.map Prod.snd).Perm
        (tasks.map (TaskSpec.executed stream)) := by
      have h2 := hpermIdx.map Prod.snd
      rwa [List.enum_eq_enumFrom, List.enumFrom_map_snd] at h2
    exact Multiset.coe_eq_coe.mpr (h1.filterMap (gimapItem eh))

/-- Witness task whose call raises a connection error (and whose greenlet
finished in time). -/
def wErrTask : TaskSpec Nat :=
  { req := AsyncRequest.init Nat "GET" "http://x.test/d" none none []
    request := fun _ => .error "ConnectionError"
    ran := true }

/-- C6 witness: one succeeding and one failing task, no handler, identity
completion orders — `gimap` emits `[5]`, `gimap_enumerate` emits
`[(0, 5)]`, and `gmap` produces `[some 5, none]`, all matching as
multisets of present outputs. -/
theorem gimap_gmap_multiset_witness :
    ∃ outB outC outA,
      GimapGen.force ⟨false, [wOkTask, wErrTask], wNoneEH⟩
          ([wOkTask, wErrTask].map (TaskSpec.executed false)) = .ok outB ∧
      GimapEnumGen.force ⟨false, [wOkTask, wErrTask], wNoneEH⟩
          (([wOkTask, wErrTask].map (TaskSpec.executed false)).enum) = .ok outC ∧
      gmap false [wOkTask, wErrTask] wNoneEH = .ok outA ∧
      (outB : Multiset Nat) = ((outA.filterMap id : List Nat) : Multiset Nat) ∧
      ((outC.map Prod.snd : List Nat) : Multiset Nat)
        = ((outA.filterMap id : List Nat) : Multiset Nat) :=
  gimap_gmap_multiset false [wOkTask, wErrTask] wNoneEH
    ([wOkTask, wErrTask].map (TaskSpec.executed false))
    (([wOkTask, wErrTask].map (TaskSpec.executed false)).enum) rfl
    (by
      intro t ht
      simp only [List.mem_cons, List.not_mem_nil, or_false] at ht
      rcases ht with rfl | rfl <;> rfl)
    (List.Perm.refl _)
    (List.Perm.refl _)

/-- When every item of an indexed list has a present contribution, the
indexed yields keep exactly the original indices, in list order. -/
theorem gimapEnumerateYields_map_fst (eh : ExcHandler ρ)
    (l : List (Nat × AsyncRequest ρ))
    (h : ∀ p ∈ l, (gimapItem eh p.2).isSome = true) :
    (gimapEnumerateYields eh l).map Prod.fst = l.map Prod.fst := by
  induction l with
  | nil => rfl
  | cons p l ih =>
    obtain ⟨v, hv⟩ := Option.isSome_iff_exists.mp (h p (List.mem_cons_self p l))
    have hl : ∀ q ∈ l, (gimapItem eh q.2).isSome = true :=
      fun q hq => h q (List.mem_cons_of_mem p hq)
    have ihl := ih hl
    simp only [gimapEnumerateYields, List.filterMap_cons, hv] at ihl ⊢
    simp [ihl]

/-- C5: for any completion order of the enumerated batch, when every task
produced a response, `gimap_enumerate` emits pairs whose indices are
exactly `0 .. N-1`, each exactly once, and each emitted value is the
response of the task at that original input position. -/
theorem gimap_enumerate_indices (stream : Bool) (tasks : List (TaskSpec ρ))
    (eh : ExcHandler ρ) (completed : List (Nat × AsyncRequest ρ))
    (hadm : eh.admissible = true)
    (hsucc : ∀ t ∈ tasks, ((TaskSpec.executed stream t).response).isSome = true)
    (hperm : completed.Perm (tasks.map (TaskSpec.executed stream)).enum) :
    ∃ out, GimapEnumGen.force ⟨stream, tasks, eh⟩ completed = .ok out ∧
      (out.map Prod.fst).Perm (List.range tasks.length) ∧
      (∀ i resp, (i, resp) ∈ out → ∃ hi : i < tasks.length,
        (TaskSpec.executed stream (tasks.get ⟨i, hi⟩)).response = some resp) := by
  have hEsome : ∀ p ∈ (tasks.map (TaskSpec.executed stream)).enum,
      (gimapItem eh p.2).isSome = true := by
    intro p hp
    rw [List.mem_enum_iff_getElem?] at hp
    obtain ⟨hh, hval⟩ := List.getElem?_eq_some.mp hp
    have hmem : p.2 ∈ tasks.map (TaskSpec.executed stream) := by
      rw [← hval]
      exact List.getElem_mem hh
    obtain ⟨t, ht, hte⟩ := List.mem_map.mp hmem
    obtain ⟨v, hv⟩ := Option.isSome_iff_exists.mp (hsucc t ht)
    rw [← hte]
    simp [gimapItem, hv]
  refine ⟨gimapEnumerateYields eh completed,
    by simp [GimapEnumGen.force, hadm], ?_, ?_⟩
  · have h1 : ((gimapEnumerateYields eh completed).map Prod.fst).Perm
        ((gimapEnumerateYields eh ((tasks.map (TaskSpec.executed stream)).enum)).map Prod.fst) :=
      (hperm.filterMap _).map _
    rw [gimapEnumerateYields_map_fst eh _ hEsome] at h1
    have h2 : ((tasks.map (TaskSpec.executed stream)).enum).map Prod.fst
        = List.range tasks.length := by
      rw [List.enum_eq_enumFrom, List.enumFrom_map_fst, List.length_map,
        List.range_eq_range']
    rw [h2] at h1
    exact h1
  · intro i resp hmem
    have hmem' : (i, resp) ∈ gimapEnumerateYields eh
        ((tasks.map (TaskSpec.executed stream)).enum) :=
      ((hperm.filterMap _).mem_iff).mp hmem
    rw [gimapEnumerateYields, List.mem_filterMap] at hmem'
    obtain ⟨p, hpE, hfp⟩ := hmem'
    obtain ⟨w, hw, heq⟩ := Option.map_eq_some'.mp hfp
    injection heq with hi1 hi2
    subst hi1
    subst hi2
    rw [List.mem_enum_iff_getElem?] at hpE
    obtain ⟨hh, hval⟩ := List.getElem?_eq_some.mp hpE
    have hlen : p.1 < tasks.length := by simpa using hh
    have hp2 : p.2 = TaskSpec.executed stream (tasks.get ⟨p.1, hlen⟩) := by
      rw [← hval]
      simp [List.getElem_map, List.get_eq_getElem]
    obtain ⟨v, hv⟩ :=
      Option.isSome_iff_exists.mp (hsucc _ (List.get_mem tasks p.1 hlen))
    rw [hp2] at hw
    simp only [gimapItem, hv] at hw
    exact ⟨hlen, by rw [hv, hw]⟩

/-- Second witness task: a fresh successful GET whose call returns `6`. -/
def wOkTask2 : TaskSpec Nat :=
  { req := AsyncRequest.init Nat "GET" "http://x.test/e" none none []
    request := fun _ => .ok 6
    ran := true }

/-- C5 witness: a two-task all-success batch, identity completion order —
the emitted index set is a permutation of `range 2`, each index paired
with its own task's response. -/
theorem gimap_enumerate_indices_witness :
    ∃ out, GimapEnumGen.force ⟨false, [wOkTask, wOkTask2], wNoneEH⟩
        (([wOkTask, wOkTask2].map (TaskSpec.executed false)).enum) = .ok out ∧
      (out.map Prod.fst).Perm (List.range [wOkTask, wOkTask2].length) ∧
      (∀ i resp, (i, resp) ∈ out → ∃ hi : i < [wOkTask, wOkTask2].length,
        (TaskSpec.executed false ([wOkTask, wOkTask2].get ⟨i, hi⟩)).response
          = some resp) :=
  gimap_enumerate_indices false [wOkTask, wOkTask2] wNoneEH
    (([wOkTask, wOkTask2].map (TaskSpec.executed false)).enum) rfl
    (by
      intro t ht
      simp only [List.mem_cons, List.not_mem_nil, or_false] at ht
      rcases ht with rfl | rfl <;> rfl)
    (List.Perm.refl _)

/-- C3 counterexample: `gimap` is a generator function, so calling it with
a non-callable `exception_handler` raises nothing at call time — the call
just returns the suspended generator, contradicting the claim that for all
three entry points the violation is raised immediately at call time. -/
theorem gimap_assert_not_at_calltime :
    gimapCall false ([] : List (TaskSpec Nat)) ExcHandler.notCallable
      = .ok ⟨false, [], ExcHandler.notCallable⟩ := rfl

/-- C3 (amended): `gmap` raises the `AssertionError` immediately at call
time, before any task is scheduled; `gimap` and `gimap_enumerate` return a
suspended generator at call time without running any check, and raise the
`AssertionError` as soon as the generator is first iterated — still before
any task is scheduled. -/
theorem assert_timing_amended (ρ : Type) :
    (∀ stream (tasks : List (TaskSpec ρ)),
      gmap stream tasks ExcHandler.notCallable = .error assertMsg) ∧
    (∀ stream (tasks : List (TaskSpec ρ)),
      gimapCall stream tasks ExcHandler.notCallable
        = .ok ⟨stream, tasks, ExcHandler.notCallable⟩) ∧
    (∀ g : GimapGen ρ, g.eh = ExcHandler.notCallable →
      ∀ completed, g.force completed = .error assertMsg) ∧
    (∀ stream (tasks : List (TaskSpec ρ)),
      gimapEnumerateCall stream tasks ExcHandler.notCallable
        = .ok ⟨stream, tasks, ExcHandler.notCallable⟩) ∧
    (∀ g : GimapEnumGen ρ, g.eh = ExcHandler.notCallable →
      ∀ completed, g.force completed = .error assertMsg) := by
  refine ⟨fun stream tasks => rfl, fun stream tasks => rfl, ?_, fun stream tasks => rfl, ?_⟩
  · intro g hg completed
    simp [GimapGen.force, hg, ExcHandler.admissible]
  · intro g hg completed
    simp [GimapEnumGen.force, hg, ExcHandler.admissible]

/-- C3 witness: at concrete inputs, `gmap` errors at call time while the
two generators error on first iteration. -/
theorem assert_timing_amended_witness :
    gmap false ([] : List (TaskSpec Nat)) ExcHandler.notCallable
      = .error assertMsg ∧
    GimapGen.force ⟨false, ([] : List (TaskSpec Nat)), ExcHandler.notCallable⟩ []
      = .error assertMsg ∧
    GimapEnumGen.force ⟨false, ([] : List (TaskSpec Nat)), ExcHandler.notCallable⟩ []
      = .error assertMsg :=
  ⟨(assert_timing_amended Nat).1 false [],
    (assert_timing_amended Nat).2.2.1 ⟨false, [], ExcHandler.notCallable⟩ rfl [],
    (assert_timing_amended Nat).2.2.2.2 ⟨false, [], ExcHandler.notCallable⟩ rfl []⟩
